import Mathlib

/-!
# go2sleep: `dissect/cglue.c`

A shallow embedding of the C glue layer between the Wireshark plugin ABI and the
dissector that lives outside this file.

The three functions of `cglue.c` only store into one function-static object and
call routines that are defined elsewhere.  Each function body is translated
statement by statement into a command tree (`Prog`): one node per store into
`plug` and one node per call of an outside routine, the call's result being fed
to the rest of the body.  `Prog.exec` gives the tree its meaning, for arbitrary
behaviours of the outside routines (`Env`), and records the nodes it passes in
program order.

Modelling decisions:
* pointers are symbolic (`Ptr`); `Ptr.plug` is `&plug`;
* C `int` / `gint` values are only passed through, never computed with, so they
  are `Int`;
* a `const char *` argument is represented by the text it points to;
* an outside routine is a total function on the whole world (the descriptor
  included): it returns to its caller, as an ordinary C call does;
* a second semantics (`Prog.execFallible`) drops that last assumption: there an
  outside routine may also not return at all (`abort`, `exit`, a `longjmp` out
  of the dissector), and the command tree stops at that call.
-/

namespace Cglue

/-! ## Data model -/

/-- Pointer values (`tvbuff_t *`, `packet_info *`, `proto_tree *`, `proto_item *`,
`void *`, `proto_plugin *`).  The adapter never dereferences any of them. -/
inductive Ptr where
  | null
  | plug
  | obj (n : Nat)
  deriving DecidableEq, Repr

/-- Values of type `void (*)(void)`: the two routines declared in lines 9-10 of
`cglue.c`, the null pointer (initial value of static storage), and any other
function. -/
inductive FnPtr where
  | null
  | protoRegisterAll
  | protoRegHandoffAll
  | other (n : Nat)
  deriving DecidableEq, Repr

/-- The host's plugin descriptor record: the two members `plugin_register` assigns. -/
structure proto_plugin where
  register_protoinfo : FnPtr
  register_handoff : FnPtr
  deriving DecidableEq, Repr

/-- Members of `proto_plugin`. -/
inductive Field where
  | register_protoinfo
  | register_handoff
  deriving DecidableEq, Repr

/-- Whole program state: the function-static `plug` of `plugin_register`, and
everything else (`host`: trees, packet info, the host's plugin list, ...). -/
structure World (H : Type) where
  plug : proto_plugin
  host : H
  deriving DecidableEq

/-- Assignment `plug.f = v`. -/
def World.store {H : Type} (w : World H) (f : Field) (v : FnPtr) : World H :=
  match f with
  | Field.register_protoinfo => { w with plug := { w.plug with register_protoinfo := v } }
  | Field.register_handoff => { w with plug := { w.plug with register_handoff := v } }

/-- One argument in the variadic tail of a printf-style call. -/
inductive VarArg where
  | str (s : List Char)
  | int (n : Int)
  | ptr (p : Ptr)
  deriving DecidableEq, Repr

/-- Behaviours of the routines `cglue.c` calls but does not define. -/
structure Env (H : Type) where
  proto_register_plugin : Ptr → World H → World H
  callDissector : Ptr → Ptr → Ptr → Ptr → Ptr → World H → Int × World H
  proto_tree_add_protocol_format :
    Ptr → Int → Ptr → Int → Int → List Char → List VarArg → World H → Ptr × World H

/-! ## Command trees -/

/-- Bodies of C functions of this file: stores into `plug` and calls of outside
routines, in program order, ending in the returned value. -/
inductive Prog (α : Type) where
  | ret (a : α)
  | store (f : Field) (v : FnPtr) (rest : Prog α)
  | proto_register_plugin (plugin : Ptr) (rest : Prog α)
  | callDissector (tvb pinfo tree data k : Ptr) (rest : Int → Prog α)
  | proto_tree_add_protocol_format (tree : Ptr) (hfindex : Int) (tvb : Ptr)
      (start length : Int) (format : List Char) (args : List VarArg) (rest : Ptr → Prog α)

/-- What the adapter did, one entry per executed node of a command tree. -/
inductive Event where
  | store (f : Field) (v : FnPtr)
  | proto_register_plugin (plugin : Ptr)
  | callDissector (tvb pinfo tree data k : Ptr)
  | proto_tree_add_protocol_format (tree : Ptr) (hfindex : Int) (tvb : Ptr)
      (start length : Int) (format : List Char) (args : List VarArg)
  deriving DecidableEq, Repr

/-- Result of running a command tree: returned value, final world, and the
adapter's own actions in the order they happened. -/
structure Outcome (H α : Type) where
  value : α
  world : World H
  trace : List Event

/-- Prepend an event to an outcome's trace. -/
def Outcome.after {H α : Type} (e : Event) (o : Outcome H α) : Outcome H α :=
  { o with trace := e :: o.trace }

/-- Semantics of command trees. -/
def Prog.exec {H α : Type} (env : Env H) : Prog α → World H → Outcome H α
  | Prog.ret a, w => ⟨a, w, []⟩
  | Prog.store f v rest, w =>
      (rest.exec env (w.store f v)).after (Event.store f v)
  | Prog.proto_register_plugin plugin rest, w =>
      (rest.exec env (env.proto_register_plugin plugin w)).after
        (Event.proto_register_plugin plugin)
  | Prog.callDissector tvb pinfo tree data k rest, w =>
      let r := env.callDissector tvb pinfo tree data k w
      ((rest r.1).exec env r.2).after (Event.callDissector tvb pinfo tree data k)
  | Prog.proto_tree_add_protocol_format tree hfindex tvb start length format args rest, w =>
      let r := env.proto_tree_add_protocol_format tree hfindex tvb start length format args w
      ((rest r.1).exec env r.2).after
        (Event.proto_tree_add_protocol_format tree hfindex tvb start length format args)

/-! ## The functions of `cglue.c` -/

/-- Lines 12-17:
```
void plugin_register(void) {
    static proto_plugin plug;
    plug.register_protoinfo = protoRegisterAll;
    plug.register_handoff = protoRegHandoffAll;
    proto_register_plugin(&plug);
}
``` -/
def plugin_register : Prog Unit :=
  Prog.store Field.register_protoinfo FnPtr.protoRegisterAll <|
  Prog.store Field.register_handoff FnPtr.protoRegHandoffAll <|
  Prog.proto_register_plugin Ptr.plug <|
  Prog.ret ()

/-- Lines 21-23:
```
int call_callDissector(tvbuff_t *tvb, packet_info *pinfo, proto_tree *tree, void *data, void *k) {
    return callDissector(tvb, pinfo, tree, data, k);
}
``` -/
def call_callDissector (tvb pinfo tree data k : Ptr) : Prog Int :=
  Prog.callDissector tvb pinfo tree data k fun r => Prog.ret r

/-- Lines 25-28:
```
proto_item *proto_tree_add_protocol_str(proto_tree *tree, int hfindex, tvbuff_t *tvb,
        gint start, gint length, const char *str) {
    return proto_tree_add_protocol_format(tree, hfindex, tvb, start, length, "%s", str);
}
``` -/
def proto_tree_add_protocol_str (tree : Ptr) (hfindex : Int) (tvb : Ptr)
    (start length : Int) (str : List Char) : Prog Ptr :=
  Prog.proto_tree_add_protocol_format tree hfindex tvb start length ['%', 's'] [VarArg.str str]
    fun r => Prog.ret r

/-! ## Sequences of adapter operations -/

/-- One call of an entry point of `cglue.c` by the host, with its arguments. -/
inductive Op where
  | plugin_register
  | call_callDissector (tvb pinfo tree data k : Ptr)
  | proto_tree_add_protocol_str (tree : Ptr) (hfindex : Int) (tvb : Ptr)
      (start length : Int) (str : List Char)
  deriving DecidableEq, Repr

/-- Run one entry point; the returned value is dropped, the world and the trace kept. -/
def Op.run {H : Type} (env : Env H) : Op → World H → World H × List Event
  | Op.plugin_register, w =>
      let o := Cglue.plugin_register.exec env w
      (o.world, o.trace)
  | Op.call_callDissector tvb pinfo tree data k, w =>
      let o := (Cglue.call_callDissector tvb pinfo tree data k).exec env w
      (o.world, o.trace)
  | Op.proto_tree_add_protocol_str tree hfindex tvb start length str, w =>
      let o := (Cglue.proto_tree_add_protocol_str tree hfindex tvb start length str).exec env w
      (o.world, o.trace)

/-- Run a sequence of entry-point calls, left to right, concatenating the traces. -/
def runOps {H : Type} (env : Env H) : List Op → World H → World H × List Event
  | [], w => (w, [])
  | op :: ops, w =>
      let a := op.run env w
      let b := runOps env ops a.1
      (b.1, a.2 ++ b.2)

/-- Is the event a store into a member of `plug`? -/
def Event.isStore : Event → Bool
  | Event.store _ _ => true
  | _ => false

/-- The adapter's stores into the descriptor, in order. -/
def descriptorWrites (tr : List Event) : List Event :=
  tr.filter Event.isStore

/-- The descriptor addresses handed to `proto_register_plugin`, in order. -/
def registrations : List Event → List Ptr
  | [] => []
  | Event.proto_register_plugin p :: tr => p :: registrations tr
  | _ :: tr => registrations tr

/-- The two stores of one `plugin_register` call. -/
def registerStores : List Event :=
  [Event.store Field.register_protoinfo FnPtr.protoRegisterAll,
   Event.store Field.register_handoff FnPtr.protoRegHandoffAll]

/-! ## printf-style formatting

The host builds the label from the format and the variadic arguments with the
C library's `printf` family.  The model covers literal characters, `%%`, and
the bare conversions `%s`, `%d` and `%n`; anything else (flags, widths, other
conversions, a missing or ill-typed argument) is outside the model and yields
`none`.  Buffer limits of the host are not modelled. -/

/-- A parsed piece of a format string. -/
inductive Piece where
  | lit (c : Char)
  | conv (c : Char)
  deriving DecidableEq, Repr

/-- Split a format string into literal characters and conversions. -/
def parseFormat : List Char → Option (List Piece)
  | [] => some []
  | [c] => if c = '%' then none else some [Piece.lit c]
  | c :: d :: rest =>
      if c = '%' then
        if d = '%' then (parseFormat rest).map (Piece.lit '%' :: ·)
        else if d = 's' ∨ d = 'd' ∨ d = 'n' then (parseFormat rest).map (Piece.conv d :: ·)
        else none
      else (parseFormat (d :: rest)).map (Piece.lit c :: ·)

/-- Text produced by one conversion for one argument (`%n` produces none and
stores a count through its pointer, which is not modelled). -/
def renderConv (c : Char) : VarArg → Option (List Char)
  | VarArg.str s => if c = 's' then some s else none
  | VarArg.int n => if c = 'd' then some (toString n).toList else none
  | VarArg.ptr _ => if c = 'n' then some [] else none

/-- Output of the pieces of a format for a list of arguments; surplus arguments
are ignored, as in C. -/
def render : List Piece → List VarArg → Option (List Char)
  | [], _ => some []
  | Piece.lit c :: ps, args => (render ps args).map (c :: ·)
  | Piece.conv _ :: _, [] => none
  | Piece.conv c :: ps, a :: args =>
      match renderConv c a, render ps args with
      | some x, some y => some (x ++ y)
      | _, _ => none

/-- The text a printf-style routine produces for `format` and `args`. -/
def printf_model (format : List Char) (args : List VarArg) : Option (List Char) :=
  match parseFormat format with
  | some ps => render ps args
  | none => none

/-- The formats the adapter passed to `proto_tree_add_protocol_format`, in order. -/
def formatsOf : List Event → List (List Char)
  | [] => []
  | Event.proto_tree_add_protocol_format _ _ _ _ _ format _ :: tr => format :: formatsOf tr
  | _ :: tr => formatsOf tr

/-- The labels the host's formatting produces for the adapter's calls of
`proto_tree_add_protocol_format`, in order. -/
def labelsOf : List Event → List (Option (List Char))
  | [] => []
  | Event.proto_tree_add_protocol_format _ _ _ _ _ format args :: tr =>
      printf_model format args :: labelsOf tr
  | _ :: tr => labelsOf tr

/-! ## A concrete host, for evaluating the definitions -/

/-- A small host: its state is a log of the pointers it has recorded.
`proto_register_plugin` logs the descriptor it is given and leaves the
descriptor alone; `callDissector` reports `-1` and changes nothing for a null
buffer, and otherwise logs the tree and reports `42`; the tree primitive hands
back item `7`. -/
def sampleEnv : Env (List Ptr) where
  proto_register_plugin := fun p w => { w with host := w.host ++ [p] }
  callDissector := fun tvb _ tree _ _ w =>
    if tvb = Ptr.null then (-1, w) else (42, { w with host := w.host ++ [tree] })
  proto_tree_add_protocol_format := fun _ _ _ _ _ _ _ w => (Ptr.obj 7, w)

/-- State at load time: static storage is zero-initialised, nothing registered. -/
def initialWorld : World (List Ptr) :=
  { plug := { register_protoinfo := FnPtr.null, register_handoff := FnPtr.null }, host := [] }

/-- The adapter's stores of `n` calls of `plugin_register`. -/
def registerStoresTimes : Nat → List Event
  | 0 => []
  | n + 1 => registerStores ++ registerStoresTimes n

/-- A host that writes into the descriptor it is handed: its state counts the
registrations seen so far, and `proto_register_plugin` replaces
`register_protoinfo` by a routine of its own, numbered by that count. -/
def relabellingEnv : Env Nat where
  proto_register_plugin := fun _ w =>
    { plug := { w.plug with register_protoinfo := FnPtr.other w.host }, host := w.host + 1 }
  callDissector := fun _ _ _ _ _ w => (0, w)
  proto_tree_add_protocol_format := fun _ _ _ _ _ _ _ w => (Ptr.null, w)

/-- Load-time state for `relabellingEnv`. -/
def relabellingWorld : World Nat :=
  { plug := { register_protoinfo := FnPtr.null, register_handoff := FnPtr.null }, host := 0 }

/-! ## Outside routines that may not return -/

/-- The world in which `plugin_register` calls the host: both members stored,
everything else as the caller left it. -/
def registeredWorld {H : Type} (w : World H) : World H :=
  { plug := { register_protoinfo := FnPtr.protoRegisterAll,
              register_handoff := FnPtr.protoRegHandoffAll },
    host := w.host }

/-! ## Shared lemmas -/

theorem exec_plugin_register {H : Type} (env : Env H) (w : World H) :
    plugin_register.exec env w =
      { value := (),
        world := env.proto_register_plugin Ptr.plug
          { plug := { register_protoinfo := FnPtr.protoRegisterAll,
                      register_handoff := FnPtr.protoRegHandoffAll },
            host := w.host },
        trace := registerStores ++ [Event.proto_register_plugin Ptr.plug] } := rfl

theorem exec_call_callDissector {H : Type} (env : Env H) (tvb pinfo tree data k : Ptr)
    (w : World H) :
    (call_callDissector tvb pinfo tree data k).exec env w =
      { value := (env.callDissector tvb pinfo tree data k w).1,
        world := (env.callDissector tvb pinfo tree data k w).2,
        trace := [Event.callDissector tvb pinfo tree data k] } := rfl

theorem exec_proto_tree_add_protocol_str {H : Type} (env : Env H) (tree : Ptr) (hfindex : Int)
    (tvb : Ptr) (start length : Int) (str : List Char) (w : World H) :
    (proto_tree_add_protocol_str tree hfindex tvb start length str).exec env w =
      { value := (env.proto_tree_add_protocol_format tree hfindex tvb start length
          ['%', 's'] [VarArg.str str] w).1,
        world := (env.proto_tree_add_protocol_format tree hfindex tvb start length
          ['%', 's'] [VarArg.str str] w).2,
        trace := [Event.proto_tree_add_protocol_format tree hfindex tvb start length
          ['%', 's'] [VarArg.str str]] } := rfl

theorem runOps_append {H : Type} (env : Env H) (xs ys : List Op) (w : World H) :
    runOps env (xs ++ ys) w =
      ((runOps env ys (runOps env xs w).1).1,
       (runOps env xs w).2 ++ (runOps env ys (runOps env xs w).1).2) := by
  induction xs generalizing w with
  | nil => simp [runOps]
  | cons x xs ih => simp [runOps, ih, List.append_assoc]

theorem descriptorWrites_append (a b : List Event) :
    descriptorWrites (a ++ b) = descriptorWrites a ++ descriptorWrites b := by
  simp [descriptorWrites]

theorem registrations_append (a b : List Event) :
    registrations (a ++ b) = registrations a ++ registrations b := by
  induction a with
  | nil => rfl
  | cons e a ih => cases e <;> simp [registrations, ih]

theorem descriptorWrites_run {H : Type} (env : Env H) (op : Op) (w : World H) :
    descriptorWrites (op.run env w).2 =
      if op = Op.plugin_register then registerStores else [] := by
  cases op <;> rfl

theorem registrations_replicate {H : Type} (env : Env H) (n : Nat) (w : World H) :
    registrations (runOps env (List.replicate n Op.plugin_register) w).2 =
      List.replicate n Ptr.plug := by
  induction n generalizing w with
  | zero => rfl
  | succ n ih =>
    have hstep : runOps env (List.replicate (n + 1) Op.plugin_register) w =
        ((runOps env (List.replicate n Op.plugin_register)
            (Op.run env Op.plugin_register w).1).1,
         (Op.run env Op.plugin_register w).2 ++
           (runOps env (List.replicate n Op.plugin_register)
            (Op.run env Op.plugin_register w).1).2) := rfl
    rw [hstep, registrations_append, ih]
    rfl

theorem descriptorWrites_runOps {H : Type} (env : Env H) (ops : List Op) (w : World H) :
    descriptorWrites (runOps env ops w).2 =
      registerStoresTimes (ops.count Op.plugin_register) := by
  induction ops generalizing w with
  | nil => rfl
  | cons op ops ih =>
    have hstep : runOps env (op :: ops) w =
        ((runOps env ops (op.run env w).1).1,
         (op.run env w).2 ++ (runOps env ops (op.run env w).1).2) := rfl
    rw [hstep, descriptorWrites_append, ih, descriptorWrites_run]
    by_cases h : op = Op.plugin_register
    · subst h
      simp [registerStoresTimes]
    · have h2 : ¬ (Op.plugin_register = op) := fun e => h e.symm
      simp [h, List.count_cons, h2]

theorem plug_after_plugin_register {H : Type} (env : Env H)
    (hframe : ∀ p w, (env.proto_register_plugin p w).plug = w.plug) (w : World H) :
    (Op.run env Op.plugin_register w).1.plug =
      { register_protoinfo := FnPtr.protoRegisterAll,
        register_handoff := FnPtr.protoRegHandoffAll } := by
  show (env.proto_register_plugin Ptr.plug _).plug = _
  rw [hframe]
  rfl

/-- C1: for all five argument values, every starting state and every behaviour of
`callDissector`, running `call_callDissector` makes exactly one outside call, which
is `callDissector` with the same five values in the same order, and returns the
integer that call returned. -/
theorem call_callDissector_forwards {H : Type} (env : Env H) (tvb pinfo tree data k : Ptr)
    (w : World H) :
    ((call_callDissector tvb pinfo tree data k).exec env w).trace =
        [Event.callDissector tvb pinfo tree data k]
    ∧ ((call_callDissector tvb pinfo tree data k).exec env w).value =
        (env.callDissector tvb pinfo tree data k w).1 :=
  ⟨rfl, rfl⟩

/-- C4: the state after `call_callDissector` returns is the state `callDissector`
leaves when called from the starting state with the same arguments; the forwarder
itself stores nothing into the descriptor; and when `callDissector` changes nothing
the whole state, descriptor included, is unchanged. -/
theorem call_callDissector_frame {H : Type} (env : Env H) (tvb pinfo tree data k : Ptr)
    (w : World H) :
    ((call_callDissector tvb pinfo tree data k).exec env w).world =
        (env.callDissector tvb pinfo tree data k w).2
    ∧ descriptorWrites ((call_callDissector tvb pinfo tree data k).exec env w).trace = []
    ∧ ((env.callDissector tvb pinfo tree data k w).2 = w →
        ((call_callDissector tvb pinfo tree data k).exec env w).world = w) :=
  ⟨rfl, rfl, fun h => h⟩

/-- Witness for C4 on the concrete host: a null buffer makes its `callDissector`
change nothing, and the state after the forwarder is the starting state. -/
theorem call_callDissector_frame_witness :
    (sampleEnv.callDissector Ptr.null (Ptr.obj 1) (Ptr.obj 2) (Ptr.obj 3) (Ptr.obj 4)
        initialWorld).2 = initialWorld
    ∧ ((call_callDissector Ptr.null (Ptr.obj 1) (Ptr.obj 2) (Ptr.obj 3) (Ptr.obj 4)).exec
        sampleEnv initialWorld).world = initialWorld :=
  ⟨by decide,
   (call_callDissector_frame sampleEnv Ptr.null (Ptr.obj 1) (Ptr.obj 2) (Ptr.obj 3) (Ptr.obj 4)
      initialWorld).2.2 (by decide)⟩

/-- C2: from every prior state, one call of `plugin_register` first stores
`protoRegisterAll` into `register_protoinfo`, then `protoRegHandoffAll` into
`register_handoff`, and then calls `proto_register_plugin` exactly once, with the
address of that descriptor; the host routine is entered with both members set. -/
theorem plugin_register_effect {H : Type} (env : Env H) (w : World H) :
    (plugin_register.exec env w).trace =
        [Event.store Field.register_protoinfo FnPtr.protoRegisterAll,
         Event.store Field.register_handoff FnPtr.protoRegHandoffAll,
         Event.proto_register_plugin Ptr.plug]
    ∧ registrations (plugin_register.exec env w).trace = [Ptr.plug]
    ∧ (plugin_register.exec env w).world =
        env.proto_register_plugin Ptr.plug
          { plug := { register_protoinfo := FnPtr.protoRegisterAll,
                      register_handoff := FnPtr.protoRegHandoffAll },
            host := w.host } :=
  ⟨rfl, rfl, rfl⟩

/-- C6 as stated fails for a host that writes into the descriptor it is handed:
with `relabellingEnv`, after one `plugin_register` the descriptor does not hold
the pair (`protoRegisterAll`, `protoRegHandoffAll`), and after a second call its
contents differ from what the single call left. -/
theorem plugin_register_contents_depend_on_host :
    (runOps relabellingEnv [Op.plugin_register] relabellingWorld).1.plug =
        { register_protoinfo := FnPtr.other 0, register_handoff := FnPtr.protoRegHandoffAll }
    ∧ (runOps relabellingEnv [Op.plugin_register] relabellingWorld).1.plug ≠
        { register_protoinfo := FnPtr.protoRegisterAll,
          register_handoff := FnPtr.protoRegHandoffAll }
    ∧ (runOps relabellingEnv (List.replicate 2 Op.plugin_register) relabellingWorld).1.plug ≠
        (runOps relabellingEnv [Op.plugin_register] relabellingWorld).1.plug := by
  decide

/-- C6, amended: one descriptor for the process lifetime.  For every number of
calls of `plugin_register` and every host, every call hands the same address
`&plug` to `proto_register_plugin` and enters it with the descriptor holding the
pair (`protoRegisterAll`, `protoRegHandoffAll`); and provided the host routine
leaves the descriptor it is handed unchanged, after each call the descriptor
holds that pair, which is what a single call leaves. -/
theorem plugin_register_repeated {H : Type} (env : Env H) (w : World H) (n : Nat) :
    registrations (runOps env (List.replicate n Op.plugin_register) w).2 =
        List.replicate n Ptr.plug
    ∧ (runOps env (List.replicate (n + 1) Op.plugin_register) w).1 =
        env.proto_register_plugin Ptr.plug
          (registeredWorld (runOps env (List.replicate n Op.plugin_register) w).1)
    ∧ ((∀ p w1, (env.proto_register_plugin p w1).plug = w1.plug) →
        (runOps env (List.replicate (n + 1) Op.plugin_register) w).1.plug =
          { register_protoinfo := FnPtr.protoRegisterAll,
            register_handoff := FnPtr.protoRegHandoffAll }
        ∧ (runOps env (List.replicate (n + 1) Op.plugin_register) w).1.plug =
          (runOps env [Op.plugin_register] w).1.plug) := by
  refine ⟨registrations_replicate env n w, ?_, ?_⟩
  · rw [List.replicate_succ', runOps_append]
    rfl
  · intro hframe
    have hlast : (runOps env (List.replicate (n + 1) Op.plugin_register) w).1.plug =
        { register_protoinfo := FnPtr.protoRegisterAll,
          register_handoff := FnPtr.protoRegHandoffAll } := by
      rw [List.replicate_succ', runOps_append]
      exact plug_after_plugin_register env hframe _
    refine ⟨hlast, ?_⟩
    rw [hlast]
    exact (plug_after_plugin_register env hframe w).symm

/-- Witness for C6 (amended) on the concrete host, whose `proto_register_plugin`
leaves the descriptor alone: the fourth call from the load-time state. -/
theorem plugin_register_repeated_witness :
    (∀ p w1, (sampleEnv.proto_register_plugin p w1).plug = w1.plug)
    ∧ (runOps sampleEnv (List.replicate (3 + 1) Op.plugin_register) initialWorld).1.plug =
        { register_protoinfo := FnPtr.protoRegisterAll,
          register_handoff := FnPtr.protoRegHandoffAll }
    ∧ (runOps sampleEnv (List.replicate (3 + 1) Op.plugin_register) initialWorld).1.plug =
        (runOps sampleEnv [Op.plugin_register] initialWorld).1.plug :=
  ⟨fun _ _ => rfl,
   (plugin_register_repeated sampleEnv initialWorld 3).2.2 (fun _ _ => rfl)⟩

/-- C5 as stated fails: run `plugin_register` from the load-time state, then
run `plugin_register` again from the state the first call left.  The second
call, an operation after the first `plugin_register`, stores into both members
of the descriptor. -/
theorem second_plugin_register_writes_descriptor :
    descriptorWrites
        (runOps sampleEnv [Op.plugin_register]
          (runOps sampleEnv [Op.plugin_register] initialWorld).1).2 =
      [Event.store Field.register_protoinfo FnPtr.protoRegisterAll,
       Event.store Field.register_handoff FnPtr.protoRegHandoffAll]
    ∧ descriptorWrites
        (runOps sampleEnv [Op.plugin_register]
          (runOps sampleEnv [Op.plugin_register] initialWorld).1).2 ≠ [] := by
  decide

/-- C5, amended: in every sequence of adapter operations, from every state, the
adapter's stores into the descriptor are the two member stores of
`plugin_register`, once per `plugin_register` call in the sequence, a repeated
call storing the same two values again; `call_callDissector` and
`proto_tree_add_protocol_str` store into no member, so when `plugin_register`
is not called again no operation after the first `plugin_register` writes the
descriptor. -/
theorem descriptor_written_only_by_plugin_register {H : Type} (env : Env H) (w : World H)
    (ops : List Op) :
    descriptorWrites (runOps env ops w).2 =
        registerStoresTimes (ops.count Op.plugin_register)
    ∧ ∀ before later : List Op, Op.plugin_register ∉ later →
        descriptorWrites
          (runOps env later (runOps env (before ++ [Op.plugin_register]) w).1).2 = [] := by
  refine ⟨descriptorWrites_runOps env ops w, ?_⟩
  intro before later hnot
  rw [descriptorWrites_runOps, List.count_eq_zero_of_not_mem hnot]
  rfl

/-- Witness for C5 (amended) on the concrete host: after `plugin_register`, a
dissection call and a label call write nothing into the descriptor. -/
theorem descriptor_written_only_by_plugin_register_witness :
    Op.plugin_register ∉
        [Op.call_callDissector (Ptr.obj 1) (Ptr.obj 2) (Ptr.obj 3) Ptr.null Ptr.null,
         Op.proto_tree_add_protocol_str (Ptr.obj 3) 5 (Ptr.obj 1) 0 4 ['%', 'n']]
    ∧ descriptorWrites
        (runOps sampleEnv
          [Op.call_callDissector (Ptr.obj 1) (Ptr.obj 2) (Ptr.obj 3) Ptr.null Ptr.null,
           Op.proto_tree_add_protocol_str (Ptr.obj 3) 5 (Ptr.obj 1) 0 4 ['%', 'n']]
          (runOps sampleEnv ([] ++ [Op.plugin_register]) initialWorld).1).2 = [] :=
  ⟨by decide,
   (descriptor_written_only_by_plugin_register sampleEnv initialWorld []).2 []
      [Op.call_callDissector (Ptr.obj 1) (Ptr.obj 2) (Ptr.obj 3) Ptr.null Ptr.null,
       Op.proto_tree_add_protocol_str (Ptr.obj 3) 5 (Ptr.obj 1) 0 4 ['%', 'n']]
      (by decide)⟩

/-! ## The label wrapper -/

/-- C3: for every tree, field index, buffer, start, length and text,
`proto_tree_add_protocol_str` makes exactly one outside call, which is
`proto_tree_add_protocol_format` with the first five arguments unchanged, the
format `%s` (one `%s` conversion and nothing else) and the text as the only
variadic argument; it returns that call's result and leaves the state that call
leaves. -/
theorem proto_tree_add_protocol_str_forwards {H : Type} (env : Env H) (tree : Ptr)
    (hfindex : Int) (tvb : Ptr) (start length : Int) (str : List Char) (w : World H) :
    ((proto_tree_add_protocol_str tree hfindex tvb start length str).exec env w).trace =
        [Event.proto_tree_add_protocol_format tree hfindex tvb start length
          ['%', 's'] [VarArg.str str]]
    ∧ parseFormat ['%', 's'] = some [Piece.conv 's']
    ∧ ((proto_tree_add_protocol_str tree hfindex tvb start length str).exec env w).value =
        (env.proto_tree_add_protocol_format tree hfindex tvb start length
          ['%', 's'] [VarArg.str str] w).1
    ∧ ((proto_tree_add_protocol_str tree hfindex tvb start length str).exec env w).world =
        (env.proto_tree_add_protocol_format tree hfindex tvb start length
          ['%', 's'] [VarArg.str str] w).2 :=
  ⟨rfl, by decide, rfl, rfl⟩

/-- C8: the text given to `proto_tree_add_protocol_str` is never the format.  For
every text the one format passed to the host primitive is the constant `%s`, and
under the printf model the label is the text itself, character for character,
whatever `%` directives the text contains. -/
theorem proto_tree_add_protocol_str_label {H : Type} (env : Env H) (tree : Ptr)
    (hfindex : Int) (tvb : Ptr) (start length : Int) (str : List Char) (w : World H) :
    formatsOf ((proto_tree_add_protocol_str tree hfindex tvb start length str).exec env w).trace =
        [['%', 's']]
    ∧ labelsOf ((proto_tree_add_protocol_str tree hfindex tvb start length str).exec env w).trace =
        [some str] := by
  refine ⟨rfl, ?_⟩
  rw [exec_proto_tree_add_protocol_str]
  simp [labelsOf, printf_model, parseFormat, render, renderConv]

end Cglue
